import Mathlib

/-!
Verification development for the rdscom message broker (src/src/index.ts).

The embedding is a shallow one: the broker's pure data transformations
(envelope encoding and decoding, the RPC request payload codec) become Lean
functions; the stateful worker pool of `listen` becomes explicit state
passing over a `PoolState` record, with one function per operation
(`processMessage`, `start`, `stop`, `setWorklimit`) and a small-step
relation capturing the interleaving of concurrent pop-loops.  Redis is an
external collaborator, so the outcomes of its primitives (`rpush`, `blpop`,
`del`) are parameters of type `Except String _`: JavaScript `Error` values
are modelled by their message strings.  Side effects (handler invocations,
error-handler invocations, re-scheduling of the loop) are reified as lists
of events.
-/

namespace Rdscom

deriving instance DecidableEq for Except

/-- Envelope placed on every queue key (interface `TracedMessage` in the
source): a correlation trace identifier together with the payload. -/
structure TracedMessage where
  traceId : String
  payload : String
deriving DecidableEq, Repr

/-- RPC request payload carried inside an envelope's `payload` field:
`JSON.stringify({ rpcId, message, responseChannel })` in
`sendAndWaitForResponse`. -/
structure RpcRequest where
  rpcId : String
  message : String
  responseChannel : String
deriving DecidableEq, Repr

/-- Mutable state of one worker pool created by `listen`: the closure
variables `worklimit`, `activeWorkers` and `isRunning`. -/
structure PoolState where
  worklimit : Nat
  activeWorkers : Nat
  isRunning : Bool
deriving DecidableEq, Repr

/-- Snapshot returned by `getStats`. -/
structure WorkerStats where
  activeWorkers : Nat
  worklimit : Nat
deriving DecidableEq, Repr

/-- Observable effects of one `processMessage` invocation. -/
inductive Event where
  /-- the user handler was invoked with `(payload, traceId)` -/
  | handlerCall (payload traceId : String)
  /-- the error handler was invoked with `(error message, raw message, traceId)` -/
  | errorCall (errMessage raw traceId : String)
  /-- the loop re-scheduled itself via `setImmediate(processMessage)` -/
  | reschedule
deriving DecidableEq, Repr

/-- Observable effects of the wrapped handler installed by
`listenAndRespond`. -/
inductive RespondEffect where
  /-- a value was pushed to a queue key via `rpush` -/
  | push (channel value : String)
  /-- the RPC error handler was invoked with `(error message, raw message, traceId)` -/
  | errorCall (errMessage raw traceId : String)
deriving DecidableEq, Repr

/-! JSON codec for the wire format.  `send` serializes an envelope with
`JSON.stringify({ traceId, payload })`, which quotes each string field per
the JSON string grammar; the pop-loop recovers it with `JSON.parse`.  The
codec below implements exactly that wire shape: the object layout produced
by `JSON.stringify` for the two-field (resp. three-field) object, with the
standard JSON string escaping rules. -/

/-- Lower-case hexadecimal digit, as used by `JSON.stringify` for `\u00xx`
escapes of control characters. -/
def hexDigit (n : Nat) : Char :=
  if n < 10 then Char.ofNat (48 + n) else Char.ofNat (87 + n)

/-- Quotation mark character. -/
def quoteChar : Char := Char.ofNat 34

/-- Backslash character. -/
def backslashChar : Char := Char.ofNat 92

/-- JSON escaping of one character, following `JSON.stringify`: quote and
backslash get two-character escapes, the common control characters get
their short escapes, all other control characters get `\u00xx`, everything
else is emitted verbatim. -/
def escapeChar (c : Char) : List Char :=
  if c = quoteChar then [backslashChar, quoteChar]
  else if c = backslashChar then [backslashChar, backslashChar]
  else if c = Char.ofNat 8 then [backslashChar, 'b']
  else if c = Char.ofNat 9 then [backslashChar, 't']
  else if c = Char.ofNat 10 then [backslashChar, 'n']
  else if c = Char.ofNat 12 then [backslashChar, 'f']
  else if c = Char.ofNat 13 then [backslashChar, 'r']
  else if c.toNat < 32 then
    [backslashChar, 'u', '0', '0', hexDigit (c.toNat / 16), hexDigit (c.toNat % 16)]
  else [c]

/-- JSON escaping of a whole string (the content between the quotes). -/
def escapeString (s : String) : List Char :=
  (s.data.map escapeChar).flatten

/-- Wire form of an envelope: `JSON.stringify({ traceId, payload })`. -/
def encodeTracedMessage (m : TracedMessage) : String :=
  String.mk ("\x7b\"traceId\":\"".data ++ escapeString m.traceId
    ++ "\",\"payload\":\"".data ++ escapeString m.payload ++ "\"\x7d".data)

/-- Wire form of an RPC request payload:
`JSON.stringify({ rpcId, message, responseChannel })`. -/
def encodeRpcRequest (r : RpcRequest) : String :=
  String.mk ("\x7b\"rpcId\":\"".data ++ escapeString r.rpcId
    ++ "\",\"message\":\"".data ++ escapeString r.message
    ++ "\",\"responseChannel\":\"".data ++ escapeString r.responseChannel ++ "\"\x7d".data)

/-- Value of one hexadecimal digit character, accepting both cases. -/
def unhex (c : Char) : Option Nat :=
  if 48 ≤ c.toNat ∧ c.toNat ≤ 57 then some (c.toNat - 48)
  else if 97 ≤ c.toNat ∧ c.toNat ≤ 102 then some (c.toNat - 87)
  else if 65 ≤ c.toNat ∧ c.toNat ≤ 70 then some (c.toNat - 55)
  else none

/-- Unescaped value of a simple (single-letter) JSON escape sequence. -/
def escapeCodeChar (c : Char) : Option Char :=
  if c = quoteChar then some quoteChar
  else if c = backslashChar then some backslashChar
  else if c = '/' then some '/'
  else if c = 'b' then some (Char.ofNat 8)
  else if c = 't' then some (Char.ofNat 9)
  else if c = 'n' then some (Char.ofNat 10)
  else if c = 'f' then some (Char.ofNat 12)
  else if c = 'r' then some (Char.ofNat 13)
  else none

/-- Parse the body of a JSON string (the input starts right after the
opening quote); returns the decoded content and the remaining input after
the closing quote.  Implements the JSON string grammar used by
`JSON.parse`: escapes are decoded, unescaped control characters are
rejected. -/
def parseJsonStringAux : List Char → Option (List Char × List Char)
  | [] => none
  | c :: rest =>
    if c = quoteChar then some ([], rest)
    else if c = backslashChar then
      match rest with
      | [] => none
      | e :: rest2 =>
        if e = 'u' then
          match rest2 with
          | h1 :: h2 :: h3 :: h4 :: rest3 =>
            match unhex h1, unhex h2, unhex h3, unhex h4 with
            | some a, some b, some c2, some d =>
              match parseJsonStringAux rest3 with
              | some (cs, r) => some (Char.ofNat (4096 * a + 256 * b + 16 * c2 + d) :: cs, r)
              | none => none
            | _, _, _, _ => none
          | _ => none
        else
          match escapeCodeChar e with
          | some u =>
            match parseJsonStringAux rest2 with
            | some (cs, r) => some (u :: cs, r)
            | none => none
          | none => none
    else if c.toNat < 32 then none
    else
      match parseJsonStringAux rest with
      | some (cs, r) => some (c :: cs, r)
      | none => none

/-- Consume an expected literal piece of input; `none` on mismatch. -/
def stripLit : List Char → List Char → Option (List Char)
  | [], l => some l
  | _ :: _, [] => none
  | p :: ps, c :: cs => if p = c then stripLit ps cs else none

/-- Decoding of the envelope wire format, as performed by the pop-loop's
`JSON.parse(message)` read as a `TracedMessage`.  Parses the object shape
produced by `encodeTracedMessage`; any other input is a malformed message
and yields the parse error. -/
def decodeTracedMessage (s : String) : Except String TracedMessage :=
  match stripLit "\x7b\"traceId\":\"".data s.data with
  | none => .error "Unexpected token in JSON"
  | some r1 =>
    match parseJsonStringAux r1 with
    | none => .error "Unterminated string in JSON"
    | some (tid, r2) =>
      match stripLit ",\"payload\":\"".data r2 with
      | none => .error "Unexpected token in JSON"
      | some r3 =>
        match parseJsonStringAux r3 with
        | none => .error "Unterminated string in JSON"
        | some (pl, r4) =>
          if r4 = "\x7d".data then .ok { traceId := String.mk tid, payload := String.mk pl }
          else .error "Unexpected token in JSON"

/-- Decoding of the RPC request payload, as performed by the wrapped
handler's `JSON.parse(messageStr)` in `listenAndRespond`. -/
def decodeRpcRequest (s : String) : Except String RpcRequest :=
  match stripLit "\x7b\"rpcId\":\"".data s.data with
  | none => .error "Unexpected token in JSON"
  | some r1 =>
    match parseJsonStringAux r1 with
    | none => .error "Unterminated string in JSON"
    | some (rid, r2) =>
      match stripLit ",\"message\":\"".data r2 with
      | none => .error "Unexpected token in JSON"
      | some r3 =>
        match parseJsonStringAux r3 with
        | none => .error "Unterminated string in JSON"
        | some (msg, r4) =>
          match stripLit ",\"responseChannel\":\"".data r4 with
          | none => .error "Unexpected token in JSON"
          | some r5 =>
            match parseJsonStringAux r5 with
            | none => .error "Unterminated string in JSON"
            | some (rc, r6) =>
              if r6 = "\x7d".data then
                .ok { rpcId := String.mk rid, message := String.mk msg,
                      responseChannel := String.mk rc }
              else .error "Unexpected token in JSON"

/-! Worker pool (`listen`).  The closure state is a `PoolState`.  Each
`processMessage` invocation consists of a synchronous prefix (the guard and
the `activeWorkers++`), a blocking pop whose outcome is a parameter, the
message handling, and the `finally` block (`activeWorkers--` plus the
conditional `setImmediate(processMessage)` re-schedule).  `start` and
`setWorklimit` observe only the synchronous prefix of the loops they spawn,
because a spawned loop suspends at the `blpop` await with its increment
already applied. -/

/-- Shutdown sentinel key of a channel (the `shutdownSignal` constant). -/
def shutdownSignal (channelName : String) : String := channelName ++ ":trm"

/-- Synchronous prefix of `processMessage`: the guard
`if (!isRunning || (activeWorkers >= worklimit && worklimit !== 0)) return`
followed by `activeWorkers++`.  Returns the new state and whether the loop
actually entered. -/
def spawnAttempt (s : PoolState) : PoolState × Bool :=
  if s.isRunning = false ∨ (s.worklimit ≤ s.activeWorkers ∧ s.worklimit ≠ 0) then
    (s, false)
  else ({ s with activeWorkers := s.activeWorkers + 1 }, true)

/-- The `finally` block's `activeWorkers--`. -/
def loopExit (s : PoolState) : PoolState :=
  { s with activeWorkers := s.activeWorkers - 1 }

/-- One complete invocation of `processMessage`.  `handler` is the user
handler as a function from `(payload, traceId)` to its outcome, `freshUuid`
is the value `uuidv4()` would produce inside this invocation, and `pop` is
the outcome of `redisClient.blpop(channelName, shutdownSignal, 0)`: a
rejection, `null`, or a `[channel, value]` pair.  Returns the final state
and the emitted events, in order. -/
def processMessage (channelName : String)
    (handler : String → String → Except String Unit)
    (freshUuid : String)
    (pop : Except String (Option (String × String)))
    (s : PoolState) : PoolState × List Event :=
  match spawnAttempt s with
  | (_, false) => (s, [])
  | (s1, true) =>
    let tryEvents : List Event :=
      match pop with
      | .error e =>
        [Event.errorCall ("Redis operation failed: " ++ e) "Error processing message" freshUuid]
      | .ok none => []
      | .ok (some (resultChannel, message)) =>
        if resultChannel = shutdownSignal channelName then []
        else
          match decodeTracedMessage message with
          | .error e =>
            [Event.errorCall ("Failed to parse message: " ++ e) message freshUuid]
          | .ok tm =>
            match handler tm.payload tm.traceId with
            | .ok _ => [Event.handlerCall tm.payload tm.traceId]
            | .error e =>
              [Event.handlerCall tm.payload tm.traceId,
               Event.errorCall ("Failed to parse message: " ++ e) message freshUuid]
    let s2 := loopExit s1
    (s2, tryEvents ++ if s2.isRunning = true then [Event.reschedule] else [])

/-- The spawning loop of `start`: `for (let i = 0; i < worklimit; i++)
processMessage()`, observing the synchronous prefix of each call.  Returns
the final state and the number of loops that entered. -/
def startSpawn : Nat → PoolState → PoolState × Nat
  | 0, s => (s, 0)
  | n + 1, s =>
    match spawnAttempt s with
    | (s1, entered) =>
      match startSpawn n s1 with
      | (s2, k) => (s2, (if entered then 1 else 0) + k)

/-- The `start` operation: a no-op while running; otherwise sets
`isRunning = true` and spawns `worklimit` pop-loops. -/
def startExec (s : PoolState) : PoolState × Nat :=
  if s.isRunning = true then (s, 0)
  else startSpawn s.worklimit { s with isRunning := true }

/-- Result of a completed `stop()` call: the final pool state, the values
pushed to the shutdown key, and the keys deleted. -/
structure StopOutcome where
  state : PoolState
  pushes : List (String × String)
  deleted : List String
deriving DecidableEq, Repr

/-- The `stop` operation, run to completion: sets `isRunning = false`,
pushes one `'STOP'` sentinel per currently active loop to the shutdown key,
then waits until `activeWorkers` reaches 0 — each sentinel wakes one loop
blocked in `blpop`, which exits through its `finally` block (`loopExit`)
without invoking any handler — and finally deletes the sentinel key.  An
in-flight handler is not cancelled: its loop runs to completion and
performs its own `loopExit`. -/
def stopExec (channelName : String) (s : PoolState) : StopOutcome :=
  let s1 : PoolState := { s with isRunning := false }
  { state := loopExit^[s1.activeWorkers] s1,
    pushes := List.replicate s1.activeWorkers (shutdownSignal channelName, "STOP"),
    deleted := [shutdownSignal channelName] }

/-- The spawning loop of `setWorklimit`:
`while (activeWorkers < worklimit && isRunning) processMessage()`.  Under
the loop guard the synchronous prefix of `processMessage` always enters
(see `spawnAttempt_enters`), incrementing `activeWorkers`. -/
def spawnLoop (s : PoolState) : PoolState :=
  if s.activeWorkers < s.worklimit ∧ s.isRunning = true then
    spawnLoop { s with activeWorkers := s.activeWorkers + 1 }
  else s
termination_by s.worklimit - s.activeWorkers
decreasing_by simp_all; omega

/-- The `setWorklimit` operation: updates the ceiling, then spawns loops
while below it. -/
def setWorklimit (newLimit : Nat) (s : PoolState) : PoolState :=
  spawnLoop { s with worklimit := newLimit }

/-- The `getStats` operation. -/
def getStats (s : PoolState) : WorkerStats :=
  { activeWorkers := s.activeWorkers, worklimit := s.worklimit }

/-- The `send` operation: wraps the message in an envelope, generating a
fresh trace id when none is supplied, and pushes its wire form to the
channel.  Returns the `(key, value)` pair appended. -/
def send (channelName message : String) (traceId : Option String)
    (freshUuid : String) : String × String :=
  (channelName, encodeTracedMessage { traceId := traceId.getD freshUuid, payload := message })

/-- Pool invariant claimed by the spec: when the ceiling is positive, the
number of active loops does not exceed it. -/
def poolInv (s : PoolState) : Prop :=
  s.worklimit ≠ 0 → s.activeWorkers ≤ s.worklimit

/-- Small-step interleaving semantics of one worker pool: the points at
which the shared state changes.  A `spawn` step is the synchronous prefix
of a `processMessage` invocation; a `finish` step is a loop's `finally`
block; `startOp`, `stopOp` and `setLimitOp` are the pool operations run to
completion.  `setLimitOp` carries the no-racing-decrease condition: the
new ceiling is not below the loops already active (or is the unbounded
sentinel 0). -/
inductive Step : PoolState → PoolState → Prop where
  | spawn (s : PoolState) : Step s (spawnAttempt s).1
  | finish (s : PoolState) (h : 0 < s.activeWorkers) : Step s (loopExit s)
  | startOp (s : PoolState) : Step s (startExec s).1
  | stopOp (channelName : String) (s : PoolState) : Step s (stopExec channelName s).state
  | setLimitOp (s : PoolState) (n : Nat) (h : s.activeWorkers ≤ n ∨ n = 0) :
      Step s (setWorklimit n s)

/-- States reachable from an initial pool state through `Step`. -/
inductive Reachable (init : PoolState) : PoolState → Prop where
  | refl : Reachable init init
  | tail {s s' : PoolState} : Reachable init s → Step s s' → Reachable init s'

/-! RPC correlator (`sendAndWaitForResponse`) and responder adapter
(`listenAndRespond`). -/

/-- JavaScript `String.prototype.includes`: substring containment. -/
def jsIncludes (s sub : String) : Bool :=
  decide (sub.data <:+: s.data)

/-- Per-call response channel name derived from the fresh rpc id. -/
def rpcResponseChannel (rpcId : String) : String := "rpc:" ++ rpcId

/-- Message of the distinguished RPC timeout error. -/
def rpcTimeoutMessage : String := "RPC timeout: No response received within 30 seconds"

/-- Hard-coded RPC deadline passed to `blpop(responseChannel, 30)`. -/
def rpcTimeoutSeconds : Nat := 30

/-- Message of a wrapped store/transport failure inside
`sendAndWaitForResponse`. -/
def rpcOpFailedMessage (e : String) : String := "RPC operation failed: " ++ e

/-- One complete `sendAndWaitForResponse` call.  `rpcId` and `freshUuid`
are the two `uuidv4()` values generated by the call; `pushResult` is the
outcome of the initial `rpush`, `popResult` the outcome of
`blpop(responseChannel, 30)` — an `ok none` means the 30-second deadline
elapsed with no response pushed to the response channel — and `delResult`
the outcome of the best-effort `del` cleanup (its failure is only logged).
Returns the call outcome together with the `(key, value)` pair appended by
the `rpush` when it succeeded. -/
def sendAndWaitForResponse (channelName message : String) (traceId : Option String)
    (rpcId freshUuid : String)
    (pushResult : Except String Unit)
    (popResult : Except String (Option (String × String)))
    (delResult : Except String Unit) :
    Except String String × List (String × String) :=
  let request : TracedMessage :=
    { traceId := traceId.getD freshUuid,
      payload := encodeRpcRequest
        { rpcId := rpcId, message := message,
          responseChannel := rpcResponseChannel rpcId } }
  let pushed : List (String × String) :=
    match pushResult with
    | .ok _ => [(channelName, encodeTracedMessage request)]
    | .error _ => []
  let body : Except String String :=
    match pushResult with
    | .error e => .error e
    | .ok _ =>
      match popResult with
      | .error e => .error e
      | .ok none => .error rpcTimeoutMessage
      | .ok (some (_, response)) => .ok response
  let outcome : Except String String :=
    match body with
    | .ok r => .ok r
    | .error e =>
      if jsIncludes e "RPC timeout" = true then .error e
      else .error (rpcOpFailedMessage e)
  (outcome, pushed)

/-- The wrapped handler that `listenAndRespond` installs on its worker
pool: decodes the RPC request payload, invokes the user handler, pushes
the result to the request's response channel, and routes any failure
(decode, handler, or push) to the error handler with the raw payload and
the trace id.  `pushResult` is the outcome of the `rpush` of the result. -/
def listenAndRespondHandler
    (handler : String → String → Except String String)
    (pushResult : Except String Unit)
    (messageStr traceId : String) : List RespondEffect :=
  match decodeRpcRequest messageStr with
  | .error e => [RespondEffect.errorCall e messageStr traceId]
  | .ok req =>
    match handler req.message traceId with
    | .error e => [RespondEffect.errorCall e messageStr traceId]
    | .ok result =>
      match pushResult with
      | .ok _ => [RespondEffect.push req.responseChannel result]
      | .error e =>
        [RespondEffect.errorCall ("Failed to send RPC response: " ++ e) messageStr traceId]

/-- Spec-side definition, for refinement comparison only.  Follows the
spec's words for the RPC Response Record: the JSON object
`{ correlationId, message }` that the spec says the responder pushes to
`responseChannel`. -/
def specRpcResponseRecord (correlationId message : String) : String :=
  String.mk ("\x7b\"correlationId\":\"".data ++ escapeString correlationId
    ++ "\",\"message\":\"".data ++ escapeString message ++ "\"\x7d".data)

/-! Helper lemmas about the worker pool. -/

theorem spawnAttempt_enters (s : PoolState) (h1 : s.isRunning = true)
    (h2 : s.activeWorkers < s.worklimit ∨ s.worklimit = 0) :
    spawnAttempt s = ({ s with activeWorkers := s.activeWorkers + 1 }, true) := by
  unfold spawnAttempt
  rw [if_neg]
  push_neg
  exact ⟨by simp [h1], fun hle => by omega⟩

theorem spawnAttempt_blocked (s : PoolState)
    (h : s.isRunning = false ∨ (s.worklimit ≤ s.activeWorkers ∧ s.worklimit ≠ 0)) :
    spawnAttempt s = (s, false) := by
  unfold spawnAttempt
  rw [if_pos h]

theorem poolInv_spawnAttempt (s : PoolState) (h : poolInv s) :
    poolInv (spawnAttempt s).1 := by
  unfold spawnAttempt
  split
  · exact h
  next hcond =>
    push_neg at hcond
    intro hlim
    dsimp only at hlim ⊢
    rcases Nat.lt_or_ge s.activeWorkers s.worklimit with hlt | hge
    · omega
    · exact absurd (hcond.2 hge) hlim

theorem poolInv_loopExit (s : PoolState) (h : poolInv s) : poolInv (loopExit s) := by
  intro hlim
  have := h hlim
  simp only [loopExit] at *
  omega

theorem startSpawn_fst (n : Nat) (s : PoolState) (h : poolInv s) :
    poolInv (startSpawn n s).1 := by
  induction n generalizing s with
  | zero => simpa [startSpawn] using h
  | succ n ih =>
    simp only [startSpawn]
    exact ih _ (poolInv_spawnAttempt s h)

theorem startSpawn_full (n : Nat) (s : PoolState) (h1 : s.isRunning = true)
    (h2 : s.activeWorkers + n ≤ s.worklimit ∨ s.worklimit = 0) :
    startSpawn n s = ({ s with activeWorkers := s.activeWorkers + n }, n) := by
  induction n generalizing s with
  | zero => simp [startSpawn]
  | succ n ih =>
    have hstep : spawnAttempt s = ({ s with activeWorkers := s.activeWorkers + 1 }, true) :=
      spawnAttempt_enters s h1 (by omega)
    have hrec := ih { s with activeWorkers := s.activeWorkers + 1 } (by simpa using h1)
      (by simp; omega)
    simp [startSpawn, hstep, hrec]
    omega

theorem loopExit_iterate (n : Nat) (s : PoolState) :
    loopExit^[n] s = { s with activeWorkers := s.activeWorkers - n } := by
  induction n generalizing s with
  | zero => simp
  | succ n ih =>
    rw [Function.iterate_succ_apply, ih]
    simp [loopExit]
    omega

theorem spawnLoop_spec (s : PoolState) :
    spawnLoop s = { s with activeWorkers :=
      if s.isRunning = true then max s.activeWorkers s.worklimit else s.activeWorkers } := by
  induction s using spawnLoop.induct with
  | case1 s h ih =>
    obtain ⟨hlt, hrun⟩ := h
    rw [spawnLoop, if_pos ⟨hlt, hrun⟩, ih]
    simp [hrun]
    omega
  | case2 s h =>
    rw [spawnLoop, if_neg h]
    push_neg at h
    by_cases hr : s.isRunning = true
    · have hle : s.worklimit ≤ s.activeWorkers := by
        by_contra hlt
        exact h (by omega) hr
      cases s with
      | mk w a r => simp_all
    · cases s with
      | mk w a r => simp_all

theorem shutdownSignal_ne (ch : String) : ch ≠ shutdownSignal ch := by
  intro h
  have hlen := congrArg String.length h
  simp [shutdownSignal, String.length_append] at hlen
  exact absurd hlen (by decide)

theorem loopExit_inc (s : PoolState) :
    loopExit { s with activeWorkers := s.activeWorkers + 1 } = s := by
  simp [loopExit]

/-! Helper lemmas for the JSON codec. -/

theorem unhex_hexDigit : ∀ n < 16, unhex (hexDigit n) = some n := by decide

theorem stripLit_append (p l : List Char) : stripLit p (p ++ l) = some l := by
  induction p with
  | nil => rfl
  | cons c p ih => simp [stripLit, ih]

theorem parseJsonStringAux_escape (cs rest : List Char) :
    parseJsonStringAux ((cs.map escapeChar).flatten ++ quoteChar :: rest) = some (cs, rest) := by
  induction cs with
  | nil =>
    rw [List.map_nil, List.flatten_nil, List.nil_append, parseJsonStringAux.eq_def]
    simp
  | cons c cs ih =>
    simp only [List.map_cons, List.flatten_cons, List.append_assoc]
    by_cases h1 : c = quoteChar
    · subst h1
      rw [show escapeChar quoteChar = [backslashChar, quoteChar] from by decide,
        List.cons_append, List.cons_append, parseJsonStringAux.eq_def]
      simp [escapeCodeChar, ih,
        (by decide : ¬ backslashChar = quoteChar), (by decide : ¬ quoteChar = 'u'),
        (by decide : ¬ quoteChar = backslashChar)]
    · by_cases h2 : c = backslashChar
      · subst h2
        rw [show escapeChar backslashChar = [backslashChar, backslashChar] from by decide,
          List.cons_append, List.cons_append, parseJsonStringAux.eq_def]
        simp [escapeCodeChar, ih,
          (by decide : ¬ backslashChar = quoteChar), (by decide : ¬ backslashChar = 'u')]
      · by_cases h3 : c = Char.ofNat 8
        · subst h3
          rw [show escapeChar (Char.ofNat 8) = [backslashChar, 'b'] from by decide,
            List.cons_append, List.cons_append, parseJsonStringAux.eq_def]
          simp [escapeCodeChar, ih,
            (by decide : ¬ backslashChar = quoteChar), (by decide : ¬ ('b' : Char) = 'u'),
            (by decide : ¬ ('b' : Char) = quoteChar),
            (by decide : ¬ ('b' : Char) = backslashChar), (by decide : ¬ ('b' : Char) = '/')]
        · by_cases h4 : c = Char.ofNat 9
          · subst h4
            rw [show escapeChar (Char.ofNat 9) = [backslashChar, 't'] from by decide,
              List.cons_append, List.cons_append, parseJsonStringAux.eq_def]
            simp [escapeCodeChar, ih,
              (by decide : ¬ backslashChar = quoteChar), (by decide : ¬ ('t' : Char) = 'u'),
              (by decide : ¬ ('t' : Char) = quoteChar),
              (by decide : ¬ ('t' : Char) = backslashChar), (by decide : ¬ ('t' : Char) = '/'),
              (by decide : ¬ ('t' : Char) = 'b')]
          · by_cases h5 : c = Char.ofNat 10
            · subst h5
              rw [show escapeChar (Char.ofNat 10) = [backslashChar, 'n'] from by decide,
                List.cons_append, List.cons_append, parseJsonStringAux.eq_def]
              simp [escapeCodeChar, ih,
                (by decide : ¬ backslashChar = quoteChar), (by decide : ¬ ('n' : Char) = 'u'),
                (by decide : ¬ ('n' : Char) = quoteChar),
                (by decide : ¬ ('n' : Char) = backslashChar),
                (by decide : ¬ ('n' : Char) = '/'), (by decide : ¬ ('n' : Char) = 'b'),
                (by decide : ¬ ('n' : Char) = 't')]
            · by_cases h6 : c = Char.ofNat 12
              · subst h6
                rw [show escapeChar (Char.ofNat 12) = [backslashChar, 'f'] from by decide,
                  List.cons_append, List.cons_append, parseJsonStringAux.eq_def]
                simp [escapeCodeChar, ih,
                  (by decide : ¬ backslashChar = quoteChar),
                  (by decide : ¬ ('f' : Char) = 'u'), (by decide : ¬ ('f' : Char) = quoteChar),
                  (by decide : ¬ ('f' : Char) = backslashChar),
                  (by decide : ¬ ('f' : Char) = '/'), (by decide : ¬ ('f' : Char) = 'b'),
                  (by decide : ¬ ('f' : Char) = 't'), (by decide : ¬ ('f' : Char) = 'n')]
              · by_cases h7 : c = Char.ofNat 13
                · subst h7
                  rw [show escapeChar (Char.ofNat 13) = [backslashChar, 'r'] from by decide,
                    List.cons_append, List.cons_append, parseJsonStringAux.eq_def]
                  simp [escapeCodeChar, ih,
                    (by decide : ¬ backslashChar = quoteChar),
                    (by decide : ¬ ('r' : Char) = 'u'),
                    (by decide : ¬ ('r' : Char) = quoteChar),
                    (by decide : ¬ ('r' : Char) = backslashChar),
                    (by decide : ¬ ('r' : Char) = '/'), (by decide : ¬ ('r' : Char) = 'b'),
                    (by decide : ¬ ('r' : Char) = 't'), (by decide : ¬ ('r' : Char) = 'n'),
                    (by decide : ¬ ('r' : Char) = 'f')]
                · by_cases h8 : c.toNat < 32
                  · have hu1 := unhex_hexDigit (c.toNat / 16) (by omega)
                    have hu2 := unhex_hexDigit (c.toNat % 16) (by omega)
                    have harith : 16 * (c.toNat / 16) + c.toNat % 16 = c.toNat := by omega
                    rw [show escapeChar c = [backslashChar, 'u', '0', '0',
                        hexDigit (c.toNat / 16), hexDigit (c.toNat % 16)] from by
                      rw [escapeChar, if_neg h1, if_neg h2, if_neg h3, if_neg h4, if_neg h5,
                        if_neg h6, if_neg h7, if_pos h8]]
                    rw [List.cons_append, List.cons_append, List.cons_append, List.cons_append,
                      List.cons_append, List.cons_append, parseJsonStringAux.eq_def]
                    simp [hu1, hu2, ih, (by decide : ¬ backslashChar = quoteChar),
                      (by decide : unhex '0' = some 0), harith, Char.ofNat_toNat]
                  · rw [show escapeChar c = [c] from by
                      rw [escapeChar, if_neg h1, if_neg h2, if_neg h3, if_neg h4, if_neg h5,
                        if_neg h6, if_neg h7, if_neg h8]]
                    rw [List.cons_append, parseJsonStringAux.eq_def]
                    simp [h1, h2, h8, ih]

theorem parseJsonStringAux_escape2 (cs rest : List Char) :
    parseJsonStringAux ((cs.map escapeChar).flatten ++ ([quoteChar] ++ rest))
      = some (cs, rest) := by
  rw [List.singleton_append]
  exact parseJsonStringAux_escape cs rest

theorem decodeTracedMessage_encode (m : TracedMessage) :
    decodeTracedMessage (encodeTracedMessage m) = .ok m := by
  have hmid : "\",\"payload\":\"".data = [quoteChar] ++ ",\"payload\":\"".data := by decide
  have hend : "\"\x7d".data = [quoteChar] ++ "\x7d".data := by decide
  have henc : (encodeTracedMessage m).data
      = "\x7b\"traceId\":\"".data ++ (escapeString m.traceId
        ++ ([quoteChar] ++ (",\"payload\":\"".data
        ++ (escapeString m.payload ++ ([quoteChar] ++ "\x7d".data))))) := by
    show "\x7b\"traceId\":\"".data ++ escapeString m.traceId
        ++ "\",\"payload\":\"".data ++ escapeString m.payload ++ "\"\x7d".data = _
    rw [hmid, hend]
    simp only [List.append_assoc]
  unfold decodeTracedMessage
  rw [henc]
  simp only [escapeString, stripLit_append, parseJsonStringAux_escape2]
  rfl

theorem decodeRpcRequest_encode (r : RpcRequest) :
    decodeRpcRequest (encodeRpcRequest r) = .ok r := by
  have hmid1 : "\",\"message\":\"".data = [quoteChar] ++ ",\"message\":\"".data := by decide
  have hmid2 : "\",\"responseChannel\":\"".data
      = [quoteChar] ++ ",\"responseChannel\":\"".data := by decide
  have hend : "\"\x7d".data = [quoteChar] ++ "\x7d".data := by decide
  have henc : (encodeRpcRequest r).data
      = "\x7b\"rpcId\":\"".data ++ (escapeString r.rpcId
        ++ ([quoteChar] ++ (",\"message\":\"".data
        ++ (escapeString r.message
        ++ ([quoteChar] ++ (",\"responseChannel\":\"".data
        ++ (escapeString r.responseChannel ++ ([quoteChar] ++ "\x7d".data)))))))) := by
    show "\x7b\"rpcId\":\"".data ++ escapeString r.rpcId
        ++ "\",\"message\":\"".data ++ escapeString r.message
        ++ "\",\"responseChannel\":\"".data ++ escapeString r.responseChannel
        ++ "\"\x7d".data = _
    rw [hmid1, hmid2, hend]
    simp only [List.append_assoc]
  unfold decodeRpcRequest
  rw [henc]
  simp only [escapeString, stripLit_append, parseJsonStringAux_escape2]
  rfl

/-- One `Step` preserves the pool invariant. -/
theorem poolInv_step {s s' : PoolState} (hstep : Step s s') (h : poolInv s) : poolInv s' := by
  cases hstep with
  | spawn s => exact poolInv_spawnAttempt s h
  | finish s hpos => exact poolInv_loopExit s h
  | startOp s =>
    unfold startExec
    split
    · exact h
    · exact startSpawn_fst _ _ (fun hlim => h hlim)
  | stopOp channelName s =>
    intro hlim
    simp only [stopExec, loopExit_iterate]
    omega
  | setLimitOp s n hn =>
    rw [setWorklimit, spawnLoop_spec]
    intro hlim
    dsimp only at hlim ⊢
    rcases hn with hcount | hzero
    · split <;> omega
    · exact absurd hzero hlim

/-! Claim theorems. -/

/-- C9: for every valid Envelope (a traceId/payload pair), decoding the
encoded wire form yields the envelope back: the JSON round-trip between
`send`'s serialization and the pop-loop's parse is the identity on valid
envelopes. -/
theorem envelope_roundtrip :
    (∀ m : TracedMessage, decodeTracedMessage (encodeTracedMessage m) = .ok m) ∧
    (∀ (channelName message : String) (traceId : Option String) (freshUuid : String),
      decodeTracedMessage (send channelName message traceId freshUuid).2 =
        .ok { traceId := traceId.getD freshUuid, payload := message }) := by
  refine ⟨fun m => decodeTracedMessage_encode m, fun ch msg tid uuid => ?_⟩
  exact decodeTracedMessage_encode { traceId := tid.getD uuid, payload := msg }

/-- C6: in every state reachable by the pool's small-step semantics from a
freshly created pool, `activeWorkers` is non-negative, and — since every
limit change along the way respected the no-racing-decrease side condition
— when `worklimit > 0` the active count does not exceed it. -/
theorem pool_invariant (L : Nat) (s : PoolState)
    (h : Reachable { worklimit := L, activeWorkers := 0, isRunning := false } s) :
    0 ≤ s.activeWorkers ∧ poolInv s := by
  refine ⟨Nat.zero_le _, ?_⟩
  induction h with
  | refl => intro _; exact Nat.zero_le _
  | tail hr hstep ih => exact poolInv_step hstep ih

/-- C6 witness: the invariant holds in the concrete state reached by
starting a pool of limit 2. -/
theorem pool_invariant_witness :
    0 ≤ (PoolState.mk 2 2 true).activeWorkers ∧ poolInv { worklimit := 2, activeWorkers := 2, isRunning := true } := by
  have h2 : Reachable { worklimit := 2, activeWorkers := 0, isRunning := false }
      { worklimit := 2, activeWorkers := 2, isRunning := true } := by
    have h1 : Reachable { worklimit := 2, activeWorkers := 0, isRunning := false }
        { worklimit := 2, activeWorkers := 0, isRunning := false } := Reachable.refl
    have h2 := Reachable.tail h1 (Step.startOp _)
    rw [show (startExec { worklimit := 2, activeWorkers := 0, isRunning := false }).1
        = { worklimit := 2, activeWorkers := 2, isRunning := true } from by decide] at h2
    exact h2
  exact pool_invariant 2 _ h2

/-- C4: after `stop()` returns, `getStats` reports zero active workers,
exactly one shutdown sentinel was pushed per loop that was active when
`stop` began, the sentinel key is deleted at the end, and no handler
invocation can start afterwards: on the stopped state every
`processMessage` invocation returns immediately with no events.  The drain
wakes blocked loops only; an in-flight handler is not cancelled — its loop
performs its own `loopExit`, which is exactly what the drain counts. -/
theorem stop_spec (channelName : String) (s : PoolState) :
    (stopExec channelName s).state.activeWorkers = 0 ∧
    (getStats (stopExec channelName s).state).activeWorkers = 0 ∧
    (stopExec channelName s).pushes =
      List.replicate s.activeWorkers (shutdownSignal channelName, "STOP") ∧
    (stopExec channelName s).deleted = [shutdownSignal channelName] ∧
    (stopExec channelName s).state.isRunning = false ∧
    (∀ (handler : String → String → Except String Unit) (freshUuid : String)
        (pop : Except String (Option (String × String))),
      processMessage channelName handler freshUuid pop (stopExec channelName s).state =
        ((stopExec channelName s).state, [])) := by
  have hstate : (stopExec channelName s).state =
      { worklimit := s.worklimit, activeWorkers := 0, isRunning := false } := by
    simp only [stopExec, loopExit_iterate]
    simp
  refine ⟨by rw [hstate], by rw [hstate]; rfl, rfl, rfl, by rw [hstate], ?_⟩
  intro handler freshUuid pop
  rw [hstate]
  rw [processMessage.eq_def, spawnAttempt_blocked _ (Or.inl rfl)]

/-- C7 counterexample: on a stopped pool with `worklimit = 0` (unbounded),
`start()` spawns zero pop-loops, not one — the `for` loop's bound is the
worklimit itself. -/
theorem start_unbounded_cex :
    (startExec { worklimit := 0, activeWorkers := 0, isRunning := false }).2 = 0 ∧
    ¬ (startExec { worklimit := 0, activeWorkers := 0, isRunning := false }).2 = 1 := by
  decide

/-- C7 (amended): `start()` is idempotent — on a running pool it changes
nothing — and on a stopped, drained pool it transitions to Running and
spawns exactly `worklimit` concurrent pop-loops; when the limit is 0
(unbounded) it spawns zero loops. -/
theorem start_spec (s : PoolState) :
    (s.isRunning = true → startExec s = (s, 0)) ∧
    (s.isRunning = false → s.activeWorkers = 0 →
      startExec s = (PoolState.mk s.worklimit s.worklimit true, s.worklimit)) := by
  constructor
  · intro hrun
    simp [startExec, hrun]
  · intro hstop hzero
    rw [startExec, if_neg (by simp [hstop])]
    have hfull := startSpawn_full s.worklimit { s with isRunning := true } rfl
      (Or.inl (by dsimp only; omega))
    rw [hfull]
    cases s with
    | mk w a r => simp_all

/-- C7 witness: starting a stopped pool of limit 3 spawns three loops. -/
theorem start_spec_witness :
    startExec { worklimit := 3, activeWorkers := 0, isRunning := false } =
      ({ worklimit := 3, activeWorkers := 3, isRunning := true }, 3) :=
  (start_spec { worklimit := 3, activeWorkers := 0, isRunning := false }).2 rfl rfl

/-- C8: `setWorklimit` updates the ceiling; on a running pool with fewer
active loops than the new limit it spawns loops up to exactly the new
limit, it never reduces the number of active loops (lowering the ceiling
only throttles future spawning), and it does not change the running
flag. -/
theorem setWorklimit_spec (newLimit : Nat) (s : PoolState) :
    (setWorklimit newLimit s).worklimit = newLimit ∧
    s.activeWorkers ≤ (setWorklimit newLimit s).activeWorkers ∧
    (s.isRunning = true →
      (setWorklimit newLimit s).activeWorkers = max s.activeWorkers newLimit) ∧
    (s.isRunning = false →
      (setWorklimit newLimit s).activeWorkers = s.activeWorkers) ∧
    (setWorklimit newLimit s).isRunning = s.isRunning := by
  rw [setWorklimit, spawnLoop_spec]
  dsimp only
  by_cases hr : s.isRunning = true
  · refine ⟨rfl, ?_, fun _ => ?_, fun hfalse => ?_, rfl⟩
    · rw [if_pos hr]
      omega
    · rw [if_pos hr]
    · rw [hr] at hfalse
      cases hfalse
  · refine ⟨rfl, ?_, fun htrue => absurd htrue hr, fun _ => ?_, rfl⟩
    · rw [if_neg hr]
    · rw [if_neg hr]

/-- C8 witness: raising the limit from 1 to 5 on a running pool with one
active loop spawns up to five loops. -/
theorem setWorklimit_spec_witness :
    (setWorklimit 5 { worklimit := 1, activeWorkers := 1, isRunning := true }).worklimit = 5 ∧
    (setWorklimit 5 { worklimit := 1, activeWorkers := 1, isRunning := true }).activeWorkers = 5 := by
  have h := setWorklimit_spec 5 { worklimit := 1, activeWorkers := 1, isRunning := true }
  refine ⟨h.1, ?_⟩
  rw [h.2.2.1 rfl]
  decide

/-- C3 counterexample: the claim says a blocking-pop fault stops the whole
pool, but on a running pool a `blpop` rejection leaves `isRunning = true`
and re-schedules the pop-loop. -/
theorem popFault_keeps_running_cex :
    ((processMessage "jobs" (fun _ _ => Except.ok ()) "uuid-1" (.error "Connection is closed.")
        { worklimit := 1, activeWorkers := 0, isRunning := true }).1.isRunning = true) ∧
    Event.reschedule ∈ (processMessage "jobs" (fun _ _ => Except.ok ()) "uuid-1"
        (.error "Connection is closed.")
        { worklimit := 1, activeWorkers := 0, isRunning := true }).2 := by
  decide

/-- C3 (amended/corrected): a blocking-pop fault does not stop the pool.
The error handler is invoked once with the wrapped store error and a fresh
uuid, the `finally` block restores the active count, and the loop
re-schedules itself because the pool is still Running — the pop is retried
rather than the pool transitioning to Stopped. -/
theorem processMessage_popFault_spec (channelName freshUuid e : String)
    (handler : String → String → Except String Unit) (s : PoolState)
    (hrun : s.isRunning = true)
    (hcap : s.activeWorkers < s.worklimit ∨ s.worklimit = 0) :
    processMessage channelName handler freshUuid (.error e) s =
      (s, [Event.errorCall ("Redis operation failed: " ++ e) "Error processing message" freshUuid,
        Event.reschedule]) ∧
    (processMessage channelName handler freshUuid (.error e) s).1.isRunning = true := by
  have hsa := spawnAttempt_enters s hrun hcap
  have heq : processMessage channelName handler freshUuid (.error e) s =
      (s, [Event.errorCall ("Redis operation failed: " ++ e) "Error processing message" freshUuid,
        Event.reschedule]) := by
    rw [processMessage.eq_def, hsa]
    cases s with
    | mk w a r =>
      subst hrun
      simp [loopExit]
  exact ⟨heq, by rw [heq]; exact hrun⟩

/-- C3 witness: concrete pop fault on a running single-slot pool. -/
theorem processMessage_popFault_witness :
    processMessage "jobs" (fun _ _ => Except.ok ()) "u1" (.error "conn lost")
        { worklimit := 1, activeWorkers := 0, isRunning := true } =
      ({ worklimit := 1, activeWorkers := 0, isRunning := true },
        [Event.errorCall ("Redis operation failed: " ++ "conn lost") "Error processing message" "u1",
          Event.reschedule]) :=
  (processMessage_popFault_spec "jobs" "u1" "conn lost" (fun _ _ => Except.ok ())
    { worklimit := 1, activeWorkers := 0, isRunning := true } rfl (Or.inl (by decide))).1

/-- C5: an item that fails to decode as an Envelope makes the pop-loop
invoke the error handler with a descriptive `Failed to parse message`
error and the raw payload; the main handler is never invoked for that
item; and the loop re-schedules itself to process subsequent items. -/
theorem processMessage_malformed_spec (channelName freshUuid raw e : String)
    (handler : String → String → Except String Unit) (s : PoolState)
    (hrun : s.isRunning = true)
    (hcap : s.activeWorkers < s.worklimit ∨ s.worklimit = 0)
    (hdec : decodeTracedMessage raw = .error e) :
    processMessage channelName handler freshUuid (.ok (some (channelName, raw))) s =
      (s, [Event.errorCall ("Failed to parse message: " ++ e) raw freshUuid,
        Event.reschedule]) ∧
    (∀ payload traceId, Event.handlerCall payload traceId ∉
      (processMessage channelName handler freshUuid (.ok (some (channelName, raw))) s).2) := by
  have hsa := spawnAttempt_enters s hrun hcap
  have heq : processMessage channelName handler freshUuid (.ok (some (channelName, raw))) s =
      (s, [Event.errorCall ("Failed to parse message: " ++ e) raw freshUuid,
        Event.reschedule]) := by
    rw [processMessage.eq_def, hsa]
    cases s with
    | mk w a r =>
      subst hrun
      simp [loopExit, hdec, shutdownSignal_ne channelName]
  refine ⟨heq, ?_⟩
  intro payload traceId
  rw [heq]
  simp

/-- C5 witness: a non-JSON payload on a running single-slot pool. -/
theorem processMessage_malformed_witness :
    processMessage "jobs" (fun _ _ => Except.ok ()) "u2"
        (.ok (some ("jobs", "invalid-json")))
        { worklimit := 1, activeWorkers := 0, isRunning := true } =
      ({ worklimit := 1, activeWorkers := 0, isRunning := true },
        [Event.errorCall ("Failed to parse message: " ++ "Unexpected token in JSON")
          "invalid-json" "u2", Event.reschedule]) :=
  (processMessage_malformed_spec "jobs" "u2" "invalid-json" "Unexpected token in JSON"
    (fun _ _ => Except.ok ()) { worklimit := 1, activeWorkers := 0, isRunning := true }
    rfl (Or.inl (by decide)) (by decide)).1

/-- C10: when the envelope decodes but the user handler rejects, the error
handler is invoked through the same `Failed to parse message:` path as a
decode failure, receiving the raw serialized envelope and the freshly
generated uuid rather than the envelope trace id, and the loop
re-schedules itself. -/
theorem processMessage_handlerFailure_spec (channelName freshUuid e : String)
    (m : TracedMessage) (handler : String → String → Except String Unit) (s : PoolState)
    (hrun : s.isRunning = true)
    (hcap : s.activeWorkers < s.worklimit ∨ s.worklimit = 0)
    (hh : handler m.payload m.traceId = .error e)
    (hfresh : freshUuid ≠ m.traceId) :
    processMessage channelName handler freshUuid
        (.ok (some (channelName, encodeTracedMessage m))) s =
      (s, [Event.handlerCall m.payload m.traceId,
        Event.errorCall ("Failed to parse message: " ++ e) (encodeTracedMessage m) freshUuid,
        Event.reschedule]) ∧
    (∀ errMessage raw, Event.errorCall errMessage raw m.traceId ∉
      (processMessage channelName handler freshUuid
        (.ok (some (channelName, encodeTracedMessage m))) s).2) := by
  have hsa := spawnAttempt_enters s hrun hcap
  have heq : processMessage channelName handler freshUuid
      (.ok (some (channelName, encodeTracedMessage m))) s =
      (s, [Event.handlerCall m.payload m.traceId,
        Event.errorCall ("Failed to parse message: " ++ e) (encodeTracedMessage m) freshUuid,
        Event.reschedule]) := by
    rw [processMessage.eq_def, hsa]
    cases s with
    | mk w a r =>
      subst hrun
      simp [loopExit, hh, decodeTracedMessage_encode, shutdownSignal_ne channelName]
  refine ⟨heq, ?_⟩
  intro errMessage raw
  rw [heq]
  simp
  intro _ _
  exact fun hcontra => hfresh hcontra.symm

/-- C10 witness: a rejecting handler on a concrete decoded envelope. -/
theorem processMessage_handlerFailure_witness :
    processMessage "jobs"
        (fun _ _ => Except.error "boom") "u3"
        (.ok (some ("jobs", encodeTracedMessage { traceId := "t9", payload := "p9" })))
        { worklimit := 1, activeWorkers := 0, isRunning := true } =
      ({ worklimit := 1, activeWorkers := 0, isRunning := true },
        [Event.handlerCall "p9" "t9",
          Event.errorCall ("Failed to parse message: " ++ "boom")
            (encodeTracedMessage { traceId := "t9", payload := "p9" }) "u3",
          Event.reschedule]) :=
  (processMessage_handlerFailure_spec "jobs" "u3" "boom"
    { traceId := "t9", payload := "p9" } (fun _ _ => Except.error "boom")
    { worklimit := 1, activeWorkers := 0, isRunning := true }
    rfl (Or.inl (by decide)) rfl (by decide)).1

/-- The wrapped store-failure message can never equal the timeout message:
they differ at the fifth character. -/
theorem rpcOpFailedMessage_ne_timeout (e : String) :
    rpcOpFailedMessage e ≠ rpcTimeoutMessage := by
  intro h
  have hd : ("RPC operation failed: " ++ e).data = rpcTimeoutMessage.data :=
    congrArg String.data h
  rw [String.data_append] at hd
  have h4 : ("RPC operation failed: ".data ++ e.data)[4]? = rpcTimeoutMessage.data[4]? := by
    rw [hd]
  rw [List.getElem?_append_left (by decide)] at h4
  exact absurd h4 (by decide)

/-- C1: `sendAndWaitForResponse` fails with exactly the distinguished RPC
timeout error when the blocking pop of the response channel yields nothing
by the 30-second deadline; when a response arrives in time the call
returns it and raises no timeout error; and a store failure surfaces as a
wrapped `RPC operation failed` error that is never equal to the timeout
error. -/
theorem sendAndWaitForResponse_spec (channelName message : String) (traceId : Option String)
    (rpcId freshUuid : String) (delResult : Except String Unit) (k response e : String)
    (popResult : Except String (Option (String × String))) :
    (sendAndWaitForResponse channelName message traceId rpcId freshUuid
        (.ok ()) (.ok none) delResult).1 = .error rpcTimeoutMessage ∧
    (sendAndWaitForResponse channelName message traceId rpcId freshUuid
        (.ok ()) (.ok (some (k, response))) delResult).1 = .ok response ∧
    (¬ jsIncludes e "RPC timeout" = true →
      (sendAndWaitForResponse channelName message traceId rpcId freshUuid
          (.error e) popResult delResult).1 = .error (rpcOpFailedMessage e) ∧
      rpcOpFailedMessage e ≠ rpcTimeoutMessage) := by
  refine ⟨?_, ?_, fun hni => ⟨?_, rpcOpFailedMessage_ne_timeout e⟩⟩
  · simp [sendAndWaitForResponse,
      (by decide : jsIncludes rpcTimeoutMessage "RPC timeout" = true)]
  · simp [sendAndWaitForResponse]
  · simp [sendAndWaitForResponse, hni]

/-- C1 witness: concrete timeout, success and store-failure outcomes. -/
theorem sendAndWaitForResponse_spec_witness :
    (sendAndWaitForResponse "chan" "ping" none "r1" "u1"
        (.ok ()) (.ok none) (.ok ())).1 = .error rpcTimeoutMessage ∧
    (sendAndWaitForResponse "chan" "ping" none "r1" "u1"
        (.ok ()) (.ok (some ("rpc:r1", "pong"))) (.ok ())).1 = .ok "pong" ∧
    ((sendAndWaitForResponse "chan" "ping" none "r1" "u1"
        (.error "boom") (.ok none) (.ok ())).1 = .error (rpcOpFailedMessage "boom") ∧
      rpcOpFailedMessage "boom" ≠ rpcTimeoutMessage) := by
  have h := sendAndWaitForResponse_spec "chan" "ping" none "r1" "u1" (.ok ())
    "rpc:r1" "pong" "boom" (.ok none)
  exact ⟨h.1, h.2.1, h.2.2 (by decide)⟩

/-- C2 counterexample: the responder pushes the bare handler result to the
response channel, not the spec's RPC Response Record — the pushed value
for result `pong` of request `r1` is the string `pong`, which is not the
record and does not contain the correlation id. -/
theorem listenAndRespond_raw_push_cex :
    listenAndRespondHandler (fun _ _ => Except.ok "pong") (.ok ())
        (encodeRpcRequest { rpcId := "r1", message := "ping", responseChannel := "rpc:r1" })
        "t1"
      = [RespondEffect.push "rpc:r1" "pong"] ∧
    "pong" ≠ specRpcResponseRecord "r1" "pong" ∧
    ¬ jsIncludes "pong" "r1" = true := by
  refine ⟨?_, by decide, by decide⟩
  unfold listenAndRespondHandler
  rw [decodeRpcRequest_encode]

/-- C2 (amended/corrected): for every RPC request consumed by a
`listenAndRespond` worker whose user handler succeeds with result `r`, the
responder pushes the bare result string `r` to the request's
`responseChannel`; the correlation id travels in the per-call channel
name, not in the pushed value. -/
theorem listenAndRespond_push_spec (req : RpcRequest) (r traceId : String)
    (handler : String → String → Except String String)
    (hh : handler req.message traceId = Except.ok r) :
    listenAndRespondHandler handler (.ok ()) (encodeRpcRequest req) traceId
      = [RespondEffect.push req.responseChannel r] := by
  unfold listenAndRespondHandler
  rw [decodeRpcRequest_encode]
  simp [hh]

/-- C2 witness: a concrete request and handler result. -/
theorem listenAndRespond_push_spec_witness :
    listenAndRespondHandler (fun _ _ => Except.ok "ok-42") (.ok ())
        (encodeRpcRequest { rpcId := "r7", message := "add", responseChannel := "rpc:r7" })
        "t7"
      = [RespondEffect.push "rpc:r7" "ok-42"] :=
  listenAndRespond_push_spec
    { rpcId := "r7", message := "add", responseChannel := "rpc:r7" }
    "ok-42" "t7" (fun _ _ => Except.ok "ok-42") rfl

end Rdscom